import Mathlib

/-!
# Shallow embedding of the `rust-chip8` interpreter core

This file embeds the CHIP-8 virtual machine of `src/vm.rs`, the display of
`src/display.rs` and the keypad of `src/keypad.rs` into Lean, and proves or
refutes the specification claims about them.

Machine integers are modelled as `Nat` with explicit `% 2^w` at the points
where the Rust source performs a lossy cast or a wrapping operation; the
`as i8` casts of `sub_vx_vy`/`subn_vx_vy` are modelled through `Int` with an
explicit two's-complement wrap.  Arrays (`memory`, `v`, `stack`, the pixel
grid, the key states) are modelled as total functions updated with
`Function.update`, mirroring in-place array stores.
-/

namespace Chip8VM

/-- The index of the register used for the carry flag (`FLAG` in `vm.rs`). -/
def FLAG : Nat := 15

/-- `DISPLAY_WIDTH` from `display.rs`. -/
def DISPLAY_WIDTH : Nat := 64

/-- `DISPLAY_HEIGHT` from `display.rs`. -/
def DISPLAY_HEIGHT : Nat := 32

/-- The graphics component (`Display` in `display.rs`): a 32×64 grid of
pixels (`gfx y x` is the pixel in row `y`, column `x`; `1` means white,
`0` black) plus the dirty flag. -/
structure Display where
  gfx : Nat → Nat → Nat
  dirty : Bool

/-- Point update of the two-dimensional pixel grid (models the in-place
store `self.gfx[y][x] = v`). -/
def updateGfx (g : Nat → Nat → Nat) (y x v : Nat) : Nat → Nat → Nat :=
  fun y' x' => if y' = y ∧ x' = x then v else g y' x'

/-- `Display::new`: an all-black screen with the dirty flag already set. -/
def Display.new : Display :=
  { gfx := fun _ _ => 0, dirty := true }

/-- `Display::clear`: set every pixel to 0 and mark dirty. -/
def Display.clear (_d : Display) : Display :=
  { gfx := fun _ _ => 0, dirty := true }

/-- The body of the inner `for i in 0..8` loop of `Display::draw`, iterated
over the list of bit indices `is` (the loop runs it over `[0, …, 7]`).
`y` is the (already wrapped) target row of the current sprite row and
`byte` the sprite byte of that row; `g` and `c` are the two mutable
locals of the loop, the pixel grid and the collision flag. -/
def drawBits (xpos y byte : Nat) :
    List Nat → (Nat → Nat → Nat) → Bool → (Nat → Nat → Nat) × Bool
  | [], g, c => (g, c)
  | i :: is, g, c =>
      let x := (xpos + i) % DISPLAY_WIDTH
      if byte &&& (0x80 >>> i) ≠ 0 then
        drawBits xpos y byte is (updateGfx g y x (g y x ^^^ 0x01))
          (c || (g y x == 0x01))
      else
        drawBits xpos y byte is g c

/-- The outer `for j in 0..h` loop of `Display::draw`, iterated over the
list of row indices `js`; each row runs the inner loop over bit indices
`0..8`. -/
def drawRows (xpos ypos : Nat) (sprite : List Nat) :
    List Nat → (Nat → Nat → Nat) → Bool → (Nat → Nat → Nat) × Bool
  | [], g, c => (g, c)
  | j :: js, g, c =>
      let r := drawBits xpos ((ypos + j) % DISPLAY_HEIGHT) (sprite.getD j 0)
        (List.range 8) g c
      drawRows xpos ypos sprite js r.1 r.2

/-- `Display::draw`: XOR-draw the sprite rows at `(xpos, ypos)` with
coordinate wraparound, mark dirty unconditionally, and return the new
display together with the collision flag. -/
def Display.draw (d : Display) (xpos ypos : Nat) (sprite : List Nat) :
    Display × Bool :=
  let r := drawRows xpos ypos sprite (List.range sprite.length) d.gfx false
  ({ gfx := r.1, dirty := true }, r.2)

/-- The input component (`Keypad` in `keypad.rs`): the state of the 16 keys
(`true` = currently pressed). -/
structure Keypad where
  keys : Nat → Bool

/-- `Keypad::new`: all keys released. -/
def Keypad.new : Keypad :=
  { keys := fun _ => false }

/-- `Keypad::get_key_state` (as used by `vm.rs`; `true` plays the role of
`Keystate::Pressed`). -/
def Keypad.getKeyState (k : Keypad) (index : Nat) : Bool :=
  k.keys index

/-- The CHIP-8 font set (`FONT_SET` in `display.rs`), 16 glyphs × 5 bytes. -/
def FONT_SET : List Nat :=
  [0xF0, 0x90, 0x90, 0x90, 0xF0,
   0x20, 0x60, 0x20, 0x20, 0x70,
   0xF0, 0x10, 0xF0, 0x80, 0xF0,
   0xF0, 0x10, 0xF0, 0x10, 0xF0,
   0x90, 0x90, 0xF0, 0x10, 0x10,
   0xF0, 0x80, 0xF0, 0x10, 0xF0,
   0xF0, 0x80, 0xF0, 0x90, 0xF0,
   0xF0, 0x10, 0x20, 0x40, 0x40,
   0xF0, 0x90, 0xF0, 0x90, 0xF0,
   0xF0, 0x90, 0xF0, 0x10, 0xF0,
   0xF0, 0x90, 0xF0, 0x90, 0x90,
   0xE0, 0x90, 0xE0, 0x90, 0xE0,
   0xF0, 0x80, 0x80, 0x80, 0xF0,
   0xE0, 0x90, 0x90, 0x90, 0xE0,
   0xF0, 0x80, 0xF0, 0x80, 0xF0,
   0xF0, 0x80, 0xF0, 0x80, 0x80]

/-- The CHIP-8 virtual machine state (`struct Chip8` in `vm.rs`). -/
structure Chip8 where
  opcode : Nat
  memory : Nat → Nat
  v : Nat → Nat
  i : Nat
  pc : Nat
  stack : Nat → Nat
  sp : Nat
  delay_timer : Nat
  sound_timer : Nat
  display : Display
  keypad : Keypad
  wait_for_key : Bool × Nat
  shift_op_use_vy : Bool

/-- `Chip8::new`: zeroed state, the font set loaded into memory `[0, 80)`,
and `pc` set to `0x200`. -/
def chip8New : Chip8 where
  opcode := 0
  memory := fun a => if a < 80 then FONT_SET.getD a 0 else 0
  v := fun _ => 0
  i := 0
  pc := 0x200
  stack := fun _ => 0
  sp := 0
  delay_timer := 0
  sound_timer := 0
  display := Display.new
  keypad := Keypad.new
  wait_for_key := (false, 0x0)
  shift_op_use_vy := false

/-- `Chip8::reset`: reinitialize everything except the loaded program in
memory (and the `shift_op_use_vy` option, which `reset` does not touch). -/
def reset (s : Chip8) : Chip8 :=
  { s with
    opcode := 0
    v := fun _ => 0
    i := 0
    pc := 0x200
    stack := fun _ => 0
    sp := 0
    delay_timer := 0
    sound_timer := 0
    display := Display.new
    keypad := Keypad.new
    wait_for_key := (false, 0x0) }

/-- `Chip8::is_waiting_for_key`. -/
def isWaitingForKey (s : Chip8) : Bool :=
  s.wait_for_key.fst

/-- `Chip8::end_wait_for_key`: a reported no-op when the VM is not waiting;
otherwise store the key index (a `usize` cast to `u8`) in the target
register, clear the wait flag and advance `pc` by 2. -/
def endWaitForKey (s : Chip8) (key_index : Nat) : Chip8 :=
  if isWaitingForKey s = false then s
  else
    { s with
      v := Function.update s.v s.wait_for_key.snd (key_index % 256)
      wait_for_key := (false, s.wait_for_key.snd)
      pc := s.pc + 2 }

/-- Interpretation of a `u8` value as an `i8` (the Rust `as i8` cast). -/
def toI8 (n : Nat) : Int :=
  if n % 256 < 128 then (n % 256 : Int) else (n % 256 : Int) - 256

/-- Two's-complement wrap of an integer into the `i8` range `[-128, 128)`
(the behaviour of overflowing `i8` arithmetic in a release build). -/
def wrapI8 (z : Int) : Int :=
  (z + 128) % 256 - 128

/-- The `i8 as u8` cast. -/
def i8ToU8 (z : Int) : Nat :=
  (z % 256).toNat

/-- `cls` (00E0): clear the screen. -/
def cls (s : Chip8) : Chip8 :=
  { s with display := s.display.clear, pc := s.pc + 2 }

/-- `jump_addr`: set `pc` to the given address. -/
def jumpAddr (s : Chip8) (addr : Nat) : Chip8 :=
  { s with pc := addr }

/-- `ret` (00EE): decrement `sp`, read the return address at the new `sp`,
jump to it, then advance `pc` by 2. -/
def ret (s : Chip8) : Chip8 :=
  let sp' := s.sp - 1
  let addr := s.stack sp'
  let s1 := jumpAddr { s with sp := sp' } addr
  { s1 with pc := s1.pc + 2 }

/-- `call_addr` (2NNN): push the current `pc`, increment `sp`, jump. -/
def callAddr (s : Chip8) (addr : Nat) : Chip8 :=
  jumpAddr
    { s with stack := Function.update s.stack s.sp s.pc, sp := s.sp + 1 }
    addr

/-- `se_vx_nn` (3XNN). -/
def seVxNn (s : Chip8) (x nn : Nat) : Chip8 :=
  { s with pc := s.pc + if s.v x = nn then 4 else 2 }

/-- `sne_vx_nn` (4XNN). -/
def sneVxNn (s : Chip8) (x nn : Nat) : Chip8 :=
  { s with pc := s.pc + if s.v x ≠ nn then 4 else 2 }

/-- `se_vx_vy` (5XY0). -/
def seVxVy (s : Chip8) (x y : Nat) : Chip8 :=
  { s with pc := s.pc + if s.v x = s.v y then 4 else 2 }

/-- `sne_vx_vy` (9XY0). -/
def sneVxVy (s : Chip8) (x y : Nat) : Chip8 :=
  { s with pc := s.pc + if s.v x ≠ s.v y then 4 else 2 }

/-- `skp_vx` (EX9E). -/
def skpVx (s : Chip8) (x : Nat) : Chip8 :=
  { s with pc := s.pc + if s.keypad.getKeyState (s.v x) then 4 else 2 }

/-- `sknp_vx` (EXA1). -/
def sknpVx (s : Chip8) (x : Nat) : Chip8 :=
  { s with pc := s.pc + if s.keypad.getKeyState (s.v x) then 2 else 4 }

/-- `ld_vx_nn` (6XNN). -/
def ldVxNn (s : Chip8) (x nn : Nat) : Chip8 :=
  { s with v := Function.update s.v x nn, pc := s.pc + 2 }

/-- `ld_vx_vy` (8XY0). -/
def ldVxVy (s : Chip8) (x y : Nat) : Chip8 :=
  { s with v := Function.update s.v x (s.v y), pc := s.pc + 2 }

/-- `ld_i_addr` (ANNN). -/
def ldIAddr (s : Chip8) (addr : Nat) : Chip8 :=
  { s with i := addr, pc := s.pc + 2 }

/-- `add_vx_nn` (7XNN): the sum is computed in `u16` (no overflow there)
and wrapped by the `as u8` cast. -/
def addVxNn (s : Chip8) (x nn : Nat) : Chip8 :=
  let new_vx_u16 := s.v x + nn
  { s with v := Function.update s.v x (new_vx_u16 % 256), pc := s.pc + 2 }

/-- `add_i_vx` (FX1E). -/
def addIVx (s : Chip8) (x : Nat) : Chip8 :=
  { s with i := s.i + s.v x, pc := s.pc + 2 }

/-- `or_vx_vy` (8XY1). -/
def orVxVy (s : Chip8) (x y : Nat) : Chip8 :=
  { s with v := Function.update s.v x (s.v x ||| s.v y), pc := s.pc + 2 }

/-- `and_vx_vy` (8XY2). -/
def andVxVy (s : Chip8) (x y : Nat) : Chip8 :=
  { s with v := Function.update s.v x (s.v x &&& s.v y), pc := s.pc + 2 }

/-- `xor_vx_vy` (8XY3). -/
def xorVxVy (s : Chip8) (x y : Nat) : Chip8 :=
  { s with v := Function.update s.v x (s.v x ^^^ s.v y), pc := s.pc + 2 }

/-- `add_vx_vy` (8XY4): `u16` sum, stored wrapped in `V[X]`, then the flag
register is set to 1 exactly when the sum exceeds 255. -/
def addVxVy (s : Chip8) (x y : Nat) : Chip8 :=
  let new_vx_u16 := s.v x + s.v y
  { s with
    v := Function.update (Function.update s.v x (new_vx_u16 % 256)) FLAG
      (if 255 < new_vx_u16 then 0x1 else 0x0)
    pc := s.pc + 2 }

/-- `sub_vx_vy` (8XY5): both operands are cast `as i8`, subtracted (with
`i8` wraparound in a release build), the result is stored via `as u8`,
and the flag register is set to 1 exactly when the (wrapped) `i8`
result is negative. -/
def subVxVy (s : Chip8) (x y : Nat) : Chip8 :=
  let new_vx_i8 := wrapI8 (toI8 (s.v x) - toI8 (s.v y))
  { s with
    v := Function.update (Function.update s.v x (i8ToU8 new_vx_i8)) FLAG
      (if new_vx_i8 < 0 then 0x1 else 0x0)
    pc := s.pc + 2 }

/-- `subn_vx_vy` (8XY7): as `sub_vx_vy` with the operands exchanged. -/
def subnVxVy (s : Chip8) (x y : Nat) : Chip8 :=
  let new_vx_i8 := wrapI8 (toI8 (s.v y) - toI8 (s.v x))
  { s with
    v := Function.update (Function.update s.v x (i8ToU8 new_vx_i8)) FLAG
      (if new_vx_i8 < 0 then 0x1 else 0x0)
    pc := s.pc + 2 }

/-- `shr_vx_vy` (8XY6): the flag register receives the pre-shift LSB, then
`V[X]` receives the shifted value (both reads happen on the register
selected by `shift_op_use_vy`). -/
def shrVxVy (s : Chip8) (x y : Nat) : Chip8 :=
  let shift_on := if s.shift_op_use_vy then y else x
  let v1 := Function.update s.v FLAG (s.v shift_on &&& 0x01)
  { s with v := Function.update v1 x (v1 shift_on >>> 1), pc := s.pc + 2 }

/-- `shl_vx_vy` (8XYE): the flag register receives the raw masked MSB
(`& 0x80`, not normalized), then `V[X]` receives the left-shifted value
(wrapped by the `u8` shift). -/
def shlVxVy (s : Chip8) (x y : Nat) : Chip8 :=
  let shift_on := if s.shift_op_use_vy then y else x
  let v1 := Function.update s.v FLAG (s.v shift_on &&& 0x80)
  { s with v := Function.update v1 x ((v1 shift_on <<< 1) % 256), pc := s.pc + 2 }

/-- `rnd_vx_nn` (CXNN): `random::<u8>()` is modelled by the `rand`
parameter threaded through `executeOpcode` (reduced mod 256 as the
`u8` it is in the source). -/
def rndVxNn (s : Chip8) (rand x nn : Nat) : Chip8 :=
  { s with v := Function.update s.v x (rand % 256 &&& nn), pc := s.pc + 2 }

/-- `drw_vx_vy_n` (DXYN): draw the `n`-byte sprite at `memory[I..I+N]` at
position `(V[X], V[Y])`; the flag register becomes the collision flag. -/
def drwVxVyN (s : Chip8) (x y n : Nat) : Chip8 :=
  let pos_x := s.v x
  let pos_y := s.v y
  let sprite := (List.range n).map (fun k => s.memory (s.i + k))
  let r := s.display.draw pos_x pos_y sprite
  { s with
    display := r.1
    v := Function.update s.v FLAG (if r.2 then 0x1 else 0x0)
    pc := s.pc + 2 }

/-- `ld_vx_dt` (FX07). -/
def ldVxDt (s : Chip8) (x : Nat) : Chip8 :=
  { s with v := Function.update s.v x s.delay_timer, pc := s.pc + 2 }

/-- `ld_dt_vx` (FX15). -/
def ldDtVx (s : Chip8) (x : Nat) : Chip8 :=
  { s with delay_timer := s.v x, pc := s.pc + 2 }

/-- `ld_st_vx` (FX18). -/
def ldStVx (s : Chip8) (x : Nat) : Chip8 :=
  { s with sound_timer := s.v x, pc := s.pc + 2 }

/-- `ld_vx_key` (FX0A): enter the wait-for-key state targeting register
`X`; `pc` is not advanced. -/
def ldVxKey (s : Chip8) (x : Nat) : Chip8 :=
  { s with wait_for_key := (true, x) }

/-- `ld_i_font_vx` (FX29): the multiplication `self.v[x] * 5` is performed
on `u8`, so it wraps modulo 256 before the cast to `usize`. -/
def ldIFontVx (s : Chip8) (x : Nat) : Chip8 :=
  { s with i := s.v x * 5 % 256, pc := s.pc + 2 }

/-- `ld_mem_i_bcd_vx` (FX33). -/
def ldMemIBcdVx (s : Chip8) (x : Nat) : Chip8 :=
  let vx := s.v x
  { s with
    memory :=
      Function.update
        (Function.update (Function.update s.memory s.i (vx / 100))
          (s.i + 1) (vx / 10 % 10))
        (s.i + 2) (vx % 100 % 10)
    pc := s.pc + 2 }

/-- `ld_mem_i_regs` (FX55): the loop `for j in 0..x` stores `V[j]` at
`memory[I + j]` (note the exclusive upper bound of the source), then
`I` is advanced by `X + 1`. -/
def ldMemIRegs (s : Chip8) (x : Nat) : Chip8 :=
  { s with
    memory := (List.range x).foldl
      (fun m j => Function.update m (s.i + j) (s.v j)) s.memory
    i := s.i + (x + 1)
    pc := s.pc + 2 }

/-- `ld_regs_mem_i` (FX65): the loop `for j in 0..x` loads `memory[I + j]`
into `V[j]` (exclusive upper bound as in the source), then `I` is
advanced by `X + 1`. -/
def ldRegsMemI (s : Chip8) (x : Nat) : Chip8 :=
  { s with
    v := (List.range x).foldl
      (fun v j => Function.update v j (s.memory (s.i + j))) s.v
    i := s.i + (x + 1)
    pc := s.pc + 2 }

/-- The opcode dispatch table of `Chip8::execute_opcode`: decode `op` into
its four nibbles `(a, b, c, d)` and match exactly as the source does.
`none` is the `op_not_implemented!` fallback (which only prints a
diagnostic).  The `0xB` arm reproduces the source expression
`op & 0x0FFF + v0`, in which Rust's `+` binds tighter than `&`. -/
def decodeOp (rand : Nat) (op : Nat) : Option (Chip8 → Chip8) :=
  match op / 4096 % 16, op / 256 % 16, op / 16 % 16, op % 16 with
  | 0x0, 0x0, 0xE, 0x0 => some cls
  | 0x0, 0x0, 0xE, 0xE => some ret
  | 0x1, _, _, _ => some (fun s => jumpAddr s (op % 4096))
  | 0x2, _, _, _ => some (fun s => callAddr s (op % 4096))
  | 0x3, x, _, _ => some (fun s => seVxNn s x (op % 256))
  | 0x4, x, _, _ => some (fun s => sneVxNn s x (op % 256))
  | 0x5, x, y, 0x0 => some (fun s => seVxVy s x y)
  | 0x6, x, _, _ => some (fun s => ldVxNn s x (op % 256))
  | 0x7, x, _, _ => some (fun s => addVxNn s x (op % 256))
  | 0x8, x, y, 0x0 => some (fun s => ldVxVy s x y)
  | 0x8, x, y, 0x1 => some (fun s => orVxVy s x y)
  | 0x8, x, y, 0x2 => some (fun s => andVxVy s x y)
  | 0x8, x, y, 0x3 => some (fun s => xorVxVy s x y)
  | 0x8, x, y, 0x4 => some (fun s => addVxVy s x y)
  | 0x8, x, y, 0x5 => some (fun s => subVxVy s x y)
  | 0x8, x, y, 0x6 => some (fun s => shrVxVy s x y)
  | 0x8, x, y, 0x7 => some (fun s => subnVxVy s x y)
  | 0x8, x, y, 0xE => some (fun s => shlVxVy s x y)
  | 0x9, x, y, 0x0 => some (fun s => sneVxVy s x y)
  | 0xA, _, _, _ => some (fun s => ldIAddr s (op % 4096))
  | 0xB, _, _, _ => some (fun s => jumpAddr s (op &&& (0x0FFF + s.v 0)))
  | 0xC, x, _, _ => some (fun s => rndVxNn s rand x (op % 256))
  | 0xD, x, y, n => some (fun s => drwVxVyN s x y n)
  | 0xE, x, 0x9, 0xE => some (fun s => skpVx s x)
  | 0xE, x, 0xA, 0x1 => some (fun s => sknpVx s x)
  | 0xF, x, 0x0, 0x7 => some (fun s => ldVxDt s x)
  | 0xF, x, 0x0, 0xA => some (fun s => ldVxKey s x)
  | 0xF, x, 0x1, 0x5 => some (fun s => ldDtVx s x)
  | 0xF, x, 0x1, 0x8 => some (fun s => ldStVx s x)
  | 0xF, x, 0x1, 0xE => some (fun s => addIVx s x)
  | 0xF, x, 0x2, 0x9 => some (fun s => ldIFontVx s x)
  | 0xF, x, 0x3, 0x3 => some (fun s => ldMemIBcdVx s x)
  | 0xF, x, 0x5, 0x5 => some (fun s => ldMemIRegs s x)
  | 0xF, x, 0x6, 0x5 => some (fun s => ldRegsMemI s x)
  | _, _, _, _ => none

/-- `Chip8::execute_opcode`: dispatch the opcode; an unmatched opcode only
prints a diagnostic (`op_not_implemented!`) and leaves the state as it
is.  `rand` models the `random::<u8>()` draw of the `0xC` arm. -/
def executeOpcode (rand : Nat) (s : Chip8) (op : Nat) : Chip8 :=
  match decodeOp rand op with
  | some f => f s
  | none => s

/-- The set of pixels toggled by `Display::draw` at `(xpos, ypos)` with
the given sprite: pixel `(row y, column x)` is toggled exactly when
some set sprite bit (most significant bit first, 8 bits per row) maps
to it through the wrapping coordinate arithmetic of the draw loop. -/
def togglesAt (xpos ypos : Nat) (sprite : List Nat) (y x : Nat) : Prop :=
  ∃ j < sprite.length, ∃ i < 8,
    sprite.getD j 0 &&& (0x80 >>> i) ≠ 0 ∧
    y = (ypos + j) % DISPLAY_HEIGHT ∧ x = (xpos + i) % DISPLAY_WIDTH

instance (xpos ypos : Nat) (sprite : List Nat) (y x : Nat) :
    Decidable (togglesAt xpos ypos sprite y x) := by
  unfold togglesAt
  infer_instance

/-! ## Decode lemmas

Each lemma reduces `executeOpcode` on an opcode with the given nibble
pattern to the corresponding instruction function. -/

theorem executeOpcode_addVxNn (rand x nn op : Nat) (s : Chip8)
    (ha : op / 4096 % 16 = 0x7) (hb : op / 256 % 16 = x)
    (hnn : op % 256 = nn) :
    executeOpcode rand s op = addVxNn s x nn := by
  unfold executeOpcode decodeOp
  rw [ha, hb, hnn]

theorem executeOpcode_addVxVy (rand x y op : Nat) (s : Chip8)
    (ha : op / 4096 % 16 = 0x8) (hb : op / 256 % 16 = x)
    (hc : op / 16 % 16 = y) (hd : op % 16 = 0x4) :
    executeOpcode rand s op = addVxVy s x y := by
  unfold executeOpcode decodeOp
  rw [ha, hb, hc, hd]

theorem executeOpcode_ldVxKey (rand x op : Nat) (s : Chip8)
    (ha : op / 4096 % 16 = 0xF) (hb : op / 256 % 16 = x)
    (hc : op / 16 % 16 = 0x0) (hd : op % 16 = 0xA) :
    executeOpcode rand s op = ldVxKey s x := by
  unfold executeOpcode decodeOp
  rw [ha, hb, hc, hd]

theorem executeOpcode_ldIFontVx (rand x op : Nat) (s : Chip8)
    (ha : op / 4096 % 16 = 0xF) (hb : op / 256 % 16 = x)
    (hc : op / 16 % 16 = 0x2) (hd : op % 16 = 0x9) :
    executeOpcode rand s op = ldIFontVx s x := by
  unfold executeOpcode decodeOp
  rw [ha, hb, hc, hd]

theorem executeOpcode_ret (rand : Nat) (s : Chip8) :
    executeOpcode rand s 0x00EE = ret s := rfl

/-! ## Display.draw lemmas -/

theorem updateGfx_self (g : Nat → Nat → Nat) (y x v : Nat) :
    updateGfx g y x v y x = v := by
  simp [updateGfx]

theorem updateGfx_ne (g : Nat → Nat → Nat) (y x v y' x' : Nat)
    (h : ¬(y' = y ∧ x' = x)) :
    updateGfx g y x v y' x' = g y' x' := by
  simp only [updateGfx, if_neg h]

/-- Within one sprite row, the eight wrapped column coordinates are
pairwise distinct. -/
theorem cols_pairwise (xpos : Nat) :
    List.Pairwise
      (fun i i' => (xpos + i) % DISPLAY_WIDTH ≠ (xpos + i') % DISPLAY_WIDTH)
      (List.range 8) := by
  refine (List.pairwise_lt_range 8).imp_of_mem ?_
  intro a b ha hb hlt
  have ha8 : a < 8 := List.mem_range.mp ha
  have hb8 : b < 8 := List.mem_range.mp hb
  show (xpos + a) % 64 ≠ (xpos + b) % 64
  omega

/-- Pixel-level characterization of the inner draw loop: provided the
toggled columns are pairwise distinct, a pixel hit by some set bit is
XOR-toggled once, and every other pixel is untouched. -/
theorem drawBits_spec (xpos y byte : Nat) :
    ∀ (is : List Nat) (g : Nat → Nat → Nat) (c : Bool) (y' x' : Nat),
      List.Pairwise
        (fun i i' => (xpos + i) % DISPLAY_WIDTH ≠ (xpos + i') % DISPLAY_WIDTH)
        is →
      ((y' = y ∧ ∃ i ∈ is, byte &&& (0x80 >>> i) ≠ 0 ∧
          x' = (xpos + i) % DISPLAY_WIDTH) →
        (drawBits xpos y byte is g c).1 y' x' = g y' x' ^^^ 0x01) ∧
      (¬(y' = y ∧ ∃ i ∈ is, byte &&& (0x80 >>> i) ≠ 0 ∧
          x' = (xpos + i) % DISPLAY_WIDTH) →
        (drawBits xpos y byte is g c).1 y' x' = g y' x') := by
  intro is
  induction is with
  | nil =>
      intro g c y' x' _
      refine ⟨?_, fun _ => by simp [drawBits]⟩
      rintro ⟨-, i, hi, -⟩
      simp at hi
  | cons i is IH =>
      intro g c y' x' hp
      obtain ⟨hne, hp'⟩ := List.pairwise_cons.mp hp
      by_cases hbit : byte &&& (0x80 >>> i) ≠ 0
      · simp only [drawBits, if_pos hbit]
        have IH' := IH
          (updateGfx g y ((xpos + i) % DISPLAY_WIDTH)
            (g y ((xpos + i) % DISPLAY_WIDTH) ^^^ 0x01))
          (c || (g y ((xpos + i) % DISPLAY_WIDTH) == 0x01))
          y' x' hp'
        constructor
        · rintro ⟨hy, i', hi', hb', hx'⟩
          rcases List.mem_cons.mp hi' with rfl | htail
          · have htc : ¬(y' = y ∧ ∃ k ∈ is, byte &&& (0x80 >>> k) ≠ 0 ∧
                x' = (xpos + k) % DISPLAY_WIDTH) := by
              rintro ⟨-, k, hk, -, hxk⟩
              exact hne k hk (hx' ▸ hxk)
            rw [IH'.2 htc, hy, hx']
            exact updateGfx_self ..
          · have hxne : x' ≠ (xpos + i) % DISPLAY_WIDTH := by
              intro hc
              exact hne i' htail (hc ▸ hx')
            rw [IH'.1 ⟨hy, i', htail, hb', hx'⟩,
              updateGfx_ne _ _ _ _ _ _ (fun hc => hxne hc.2)]
        · intro hn
          have htc : ¬(y' = y ∧ ∃ k ∈ is, byte &&& (0x80 >>> k) ≠ 0 ∧
              x' = (xpos + k) % DISPLAY_WIDTH) := by
            rintro ⟨hy, k, hk, hb', hxk⟩
            exact hn ⟨hy, k, List.mem_cons_of_mem _ hk, hb', hxk⟩
          rw [IH'.2 htc]
          refine updateGfx_ne _ _ _ _ _ _ (fun hc => ?_)
          exact hn ⟨hc.1, i, List.mem_cons_self i is, hbit, hc.2⟩
      · simp only [drawBits, if_neg hbit]
        have IH' := IH g c y' x' hp'
        constructor
        · rintro ⟨hy, i', hi', hb', hx'⟩
          rcases List.mem_cons.mp hi' with rfl | htail
          · exact absurd hb' hbit
          · exact IH'.1 ⟨hy, i', htail, hb', hx'⟩
        · intro hn
          refine IH'.2 ?_
          rintro ⟨hy, k, hk, hb', hxk⟩
          exact hn ⟨hy, k, List.mem_cons_of_mem _ hk, hb', hxk⟩

/-- Collision-flag characterization of the inner draw loop: the flag is
raised exactly when it was already raised or some set bit lands on a
pixel currently equal to 1. -/
theorem drawBits_snd (xpos y byte : Nat) :
    ∀ (is : List Nat) (g : Nat → Nat → Nat) (c : Bool),
      List.Pairwise
        (fun i i' => (xpos + i) % DISPLAY_WIDTH ≠ (xpos + i') % DISPLAY_WIDTH)
        is →
      ((drawBits xpos y byte is g c).2 = true ↔
        c = true ∨ ∃ i ∈ is, byte &&& (0x80 >>> i) ≠ 0 ∧
          g y ((xpos + i) % DISPLAY_WIDTH) = 1) := by
  intro is
  induction is with
  | nil =>
      intro g c _
      simp [drawBits]
  | cons i is IH =>
      intro g c hp
      obtain ⟨hne, hp'⟩ := List.pairwise_cons.mp hp
      by_cases hbit : byte &&& (0x80 >>> i) ≠ 0
      · simp only [drawBits, if_pos hbit]
        rw [IH _ _ hp']
        have hfix : ∀ i' ∈ is,
            updateGfx g y ((xpos + i) % DISPLAY_WIDTH)
              (g y ((xpos + i) % DISPLAY_WIDTH) ^^^ 0x01)
              y ((xpos + i') % DISPLAY_WIDTH) =
            g y ((xpos + i') % DISPLAY_WIDTH) := by
          intro i' hi'
          exact updateGfx_ne _ _ _ _ _ _ (fun hc => hne i' hi' hc.2.symm)
        constructor
        · rintro (h2 | ⟨i', hi', hb', hv⟩)
          · rcases Bool.or_eq_true _ _ |>.mp h2 with ha | hb
            · exact Or.inl ha
            · refine Or.inr ⟨i, List.mem_cons_self i is, hbit, ?_⟩
              simpa using hb
          · exact Or.inr ⟨i', List.mem_cons_of_mem _ hi', hb', (hfix i' hi') ▸ hv⟩
        · rintro (h2 | ⟨i', hi', hb', hv⟩)
          · exact Or.inl (by simp [h2])
          · rcases List.mem_cons.mp hi' with rfl | htail
            · exact Or.inl (by simp [hv])
            · exact Or.inr ⟨i', htail, hb', (hfix i' htail).symm ▸ hv⟩
      · simp only [drawBits, if_neg hbit]
        rw [IH _ _ hp']
        constructor
        · rintro (h2 | ⟨i', hi', hb', hv⟩)
          · exact Or.inl h2
          · exact Or.inr ⟨i', List.mem_cons_of_mem _ hi', hb', hv⟩
        · rintro (h2 | ⟨i', hi', hb', hv⟩)
          · exact Or.inl h2
          · rcases List.mem_cons.mp hi' with rfl | htail
            · exact absurd hb' hbit
            · exact Or.inr ⟨i', htail, hb', hv⟩

/-- Pixel-level characterization of the outer draw loop: provided the
toggled rows are pairwise distinct, a pixel hit by some set sprite bit
is XOR-toggled once, and every other pixel is untouched. -/
theorem drawRows_spec (xpos ypos : Nat) (sprite : List Nat) :
    ∀ (js : List Nat) (g : Nat → Nat → Nat) (c : Bool) (y' x' : Nat),
      List.Pairwise
        (fun j j' => (ypos + j) % DISPLAY_HEIGHT ≠ (ypos + j') % DISPLAY_HEIGHT)
        js →
      ((∃ j ∈ js, y' = (ypos + j) % DISPLAY_HEIGHT ∧
          ∃ i ∈ List.range 8, sprite.getD j 0 &&& (0x80 >>> i) ≠ 0 ∧
            x' = (xpos + i) % DISPLAY_WIDTH) →
        (drawRows xpos ypos sprite js g c).1 y' x' = g y' x' ^^^ 0x01) ∧
      (¬(∃ j ∈ js, y' = (ypos + j) % DISPLAY_HEIGHT ∧
          ∃ i ∈ List.range 8, sprite.getD j 0 &&& (0x80 >>> i) ≠ 0 ∧
            x' = (xpos + i) % DISPLAY_WIDTH) →
        (drawRows xpos ypos sprite js g c).1 y' x' = g y' x') := by
  intro js
  induction js with
  | nil =>
      intro g c y' x' _
      refine ⟨?_, fun _ => by simp [drawRows]⟩
      rintro ⟨j, hj, -⟩
      simp at hj
  | cons j js IH =>
      intro g c y' x' hp
      obtain ⟨hne, hp'⟩ := List.pairwise_cons.mp hp
      simp only [drawRows]
      have Ispec := drawBits_spec xpos ((ypos + j) % DISPLAY_HEIGHT)
        (sprite.getD j 0) (List.range 8) g c y' x' (cols_pairwise xpos)
      have IH' := IH
        (drawBits xpos ((ypos + j) % DISPLAY_HEIGHT) (sprite.getD j 0)
          (List.range 8) g c).1
        (drawBits xpos ((ypos + j) % DISPLAY_HEIGHT) (sprite.getD j 0)
          (List.range 8) g c).2
        y' x' hp'
      constructor
      · rintro ⟨j', hj', hy', hrow⟩
        rcases List.mem_cons.mp hj' with rfl | htail
        · have htc : ¬(∃ k ∈ js, y' = (ypos + k) % DISPLAY_HEIGHT ∧
              ∃ i ∈ List.range 8, sprite.getD k 0 &&& (0x80 >>> i) ≠ 0 ∧
                x' = (xpos + i) % DISPLAY_WIDTH) := by
            rintro ⟨k, hk, hyk, -⟩
            exact hne k hk (hy' ▸ hyk)
          rw [IH'.2 htc]
          exact Ispec.1 ⟨hy', hrow⟩
        · have hyne : y' ≠ (ypos + j) % DISPLAY_HEIGHT := by
            intro hc
            exact hne j' htail (hc ▸ hy')
          rw [IH'.1 ⟨j', htail, hy', hrow⟩,
            Ispec.2 (fun hc => hyne hc.1)]
      · intro hn
        have htc : ¬(∃ k ∈ js, y' = (ypos + k) % DISPLAY_HEIGHT ∧
            ∃ i ∈ List.range 8, sprite.getD k 0 &&& (0x80 >>> i) ≠ 0 ∧
              x' = (xpos + i) % DISPLAY_WIDTH) := by
          rintro ⟨k, hk, hyk, hrow⟩
          exact hn ⟨k, List.mem_cons_of_mem _ hk, hyk, hrow⟩
        rw [IH'.2 htc]
        refine Ispec.2 (fun hc => ?_)
        exact hn ⟨j, List.mem_cons_self j js, hc.1, hc.2⟩

/-- Collision-flag characterization of the outer draw loop. -/
theorem drawRows_snd (xpos ypos : Nat) (sprite : List Nat) :
    ∀ (js : List Nat) (g : Nat → Nat → Nat) (c : Bool),
      List.Pairwise
        (fun j j' => (ypos + j) % DISPLAY_HEIGHT ≠ (ypos + j') % DISPLAY_HEIGHT)
        js →
      ((drawRows xpos ypos sprite js g c).2 = true ↔
        c = true ∨ ∃ j ∈ js, ∃ i ∈ List.range 8,
          sprite.getD j 0 &&& (0x80 >>> i) ≠ 0 ∧
          g ((ypos + j) % DISPLAY_HEIGHT) ((xpos + i) % DISPLAY_WIDTH) = 1) := by
  intro js
  induction js with
  | nil =>
      intro g c _
      simp [drawRows]
  | cons j js IH =>
      intro g c hp
      obtain ⟨hne, hp'⟩ := List.pairwise_cons.mp hp
      simp only [drawRows]
      have Ispec := fun y' x' => drawBits_spec xpos ((ypos + j) % DISPLAY_HEIGHT)
        (sprite.getD j 0) (List.range 8) g c y' x' (cols_pairwise xpos)
      have Isnd := drawBits_snd xpos ((ypos + j) % DISPLAY_HEIGHT)
        (sprite.getD j 0) (List.range 8) g c (cols_pairwise xpos)
      rw [IH _ _ hp', Isnd]
      have hfix : ∀ j' ∈ js, ∀ i : Nat,
          (drawBits xpos ((ypos + j) % DISPLAY_HEIGHT) (sprite.getD j 0)
            (List.range 8) g c).1 ((ypos + j') % DISPLAY_HEIGHT)
            ((xpos + i) % DISPLAY_WIDTH) =
          g ((ypos + j') % DISPLAY_HEIGHT) ((xpos + i) % DISPLAY_WIDTH) := by
        intro j' hj' i
        exact (Ispec _ _).2 (fun hc => hne j' hj' hc.1.symm)
      constructor
      · rintro ((h2 | ⟨i, hi, hb, hv⟩) | ⟨j', hj', i, hi, hb, hv⟩)
        · exact Or.inl h2
        · exact Or.inr ⟨j, List.mem_cons_self j js, i, hi, hb, hv⟩
        · exact Or.inr ⟨j', List.mem_cons_of_mem _ hj', i, hi, hb,
            (hfix j' hj' i) ▸ hv⟩
      · rintro (h2 | ⟨j', hj', i, hi, hb, hv⟩)
        · exact Or.inl (Or.inl h2)
        · rcases List.mem_cons.mp hj' with rfl | htail
          · exact Or.inl (Or.inr ⟨i, hi, hb, hv⟩)
          · exact Or.inr ⟨j', htail, i, hi, hb, (hfix j' htail i).symm ▸ hv⟩

/-! ## Claim C7 — Display.draw -/

/-- C7: for every position and every sprite of at most 32 rows (the VM
passes at most 15, the largest value of the `N` nibble), `Display.draw`
toggles (XOR) exactly the pixels hit by a set sprite bit at
`(row (y+row) mod 32, column (x+col) mod 64)` — every other pixel is
untouched — returns `true` iff some toggled pixel was set (equal to 1)
before the draw, i.e. went from set to unset, and sets the dirty flag
unconditionally, even when no pixel changes. -/
theorem C7_draw (d : Display) (xpos ypos : Nat) (sprite : List Nat)
    (hlen : sprite.length ≤ 32) :
    (d.draw xpos ypos sprite).1.dirty = true ∧
    (∀ y x, togglesAt xpos ypos sprite y x →
      (d.draw xpos ypos sprite).1.gfx y x = d.gfx y x ^^^ 0x01) ∧
    (∀ y x, ¬togglesAt xpos ypos sprite y x →
      (d.draw xpos ypos sprite).1.gfx y x = d.gfx y x) ∧
    ((d.draw xpos ypos sprite).2 = true ↔
      ∃ y x, togglesAt xpos ypos sprite y x ∧ d.gfx y x = 1) := by
  have hrows : List.Pairwise
      (fun j j' => (ypos + j) % DISPLAY_HEIGHT ≠ (ypos + j') % DISPLAY_HEIGHT)
      (List.range sprite.length) := by
    refine (List.pairwise_lt_range _).imp_of_mem ?_
    intro a b ha hb hlt
    have ha' : a < sprite.length := List.mem_range.mp ha
    have hb' : b < sprite.length := List.mem_range.mp hb
    show (ypos + a) % 32 ≠ (ypos + b) % 32
    omega
  have hbridge : ∀ y x, togglesAt xpos ypos sprite y x ↔
      ∃ j ∈ List.range sprite.length, y = (ypos + j) % DISPLAY_HEIGHT ∧
        ∃ i ∈ List.range 8, sprite.getD j 0 &&& (0x80 >>> i) ≠ 0 ∧
          x = (xpos + i) % DISPLAY_WIDTH := by
    intro y x
    constructor
    · rintro ⟨j, hj, i, hi, hb, hy, hx⟩
      exact ⟨j, List.mem_range.mpr hj, hy, i, List.mem_range.mpr hi, hb, hx⟩
    · rintro ⟨j, hj, hy, i, hi, hb, hx⟩
      exact ⟨j, List.mem_range.mp hj, i, List.mem_range.mp hi, hb, hy, hx⟩
  refine ⟨rfl, ?_, ?_, ?_⟩
  · intro y x h
    exact (drawRows_spec xpos ypos sprite (List.range sprite.length)
      d.gfx false y x hrows).1 ((hbridge y x).mp h)
  · intro y x h
    exact (drawRows_spec xpos ypos sprite (List.range sprite.length)
      d.gfx false y x hrows).2 (fun hc => h ((hbridge y x).mpr hc))
  · rw [show (d.draw xpos ypos sprite).2 =
        (drawRows xpos ypos sprite (List.range sprite.length)
          d.gfx false).2 from rfl,
      drawRows_snd xpos ypos sprite (List.range sprite.length)
        d.gfx false hrows]
    constructor
    · rintro (h2 | ⟨j, hj, i, hi, hb, hv⟩)
      · exact absurd h2 (by simp)
      · exact ⟨(ypos + j) % DISPLAY_HEIGHT, (xpos + i) % DISPLAY_WIDTH,
          ⟨j, List.mem_range.mp hj, i, List.mem_range.mp hi, hb, rfl, rfl⟩, hv⟩
    · rintro ⟨y, x, ⟨j, hj, i, hi, hb, hy, hx⟩, hv⟩
      exact Or.inr ⟨j, List.mem_range.mpr hj, i, List.mem_range.mpr hi, hb,
        hy ▸ hx ▸ hv⟩

/-- C7 witness: the draw theorem applied to a one-byte sprite `0x80` drawn
at the origin of a fresh display. -/
theorem C7_draw_witness :
    ([0x80] : List Nat).length ≤ 32 ∧
    ((Display.new).draw 0 0 [0x80]).1.dirty = true ∧
    (((Display.new).draw 0 0 [0x80]).2 = true ↔
      ∃ y x, togglesAt 0 0 [0x80] y x ∧ (Display.new).gfx y x = 1) := by
  refine ⟨by decide, ?_, ?_⟩
  · exact (C7_draw Display.new 0 0 [0x80] (by decide)).1
  · exact (C7_draw Display.new 0 0 [0x80] (by decide)).2.2.2

/-! ## Claim C1 — BNNN -/

/-- C1 (code bug): executing `0xB001` with `V0 = 1` sets `pc` to `0x1000`,
not to `NNN + V0 = 1 + 1 = 2` as the specification (and every CHIP-8
reference cited by the source) requires: the source expression
`op & 0x0FFF + v0` parses as `op & (0x0FFF + v0)` because Rust's `+`
binds tighter than `&`. -/
theorem C1_bnnn_code_eval :
    (executeOpcode 0 { chip8New with v := Function.update chip8New.v 0 1 }
      0xB001).pc = 0x1000 ∧
    0xB001 % 4096 + ({ chip8New with v := Function.update chip8New.v 0 1 } : Chip8).v 0 = 2 ∧
    (0x1000 : Nat) ≠ 2 := by
  refine ⟨rfl, by decide, by decide⟩

/-! ## Claim C2 — 8XY5 / 8XY7 borrow flag -/

/-- C2 (code bug): executing `0x8015` with `V0 = 200`, `V1 = 0` leaves the
wrapped difference `200` in `V0` but sets the flag register to `1`
although no borrow occurs (`200 - 0` is not negative): the source
derives the flag from the sign bit of the wrapped `i8` result, i.e.
from the final wrapped value, contradicting its own doc comment
("Set V_FLAG to 0x1 if a borrow occurs") and the claim. -/
theorem C2_sub_borrow_code_eval :
    (executeOpcode 0 { chip8New with v := Function.update chip8New.v 0 200 }
      0x8015).v FLAG = 1 ∧
    (executeOpcode 0 { chip8New with v := Function.update chip8New.v 0 200 }
      0x8015).v 0 = 200 ∧
    ({ chip8New with v := Function.update chip8New.v 0 200 } : Chip8).v 0 = 200 ∧
    ({ chip8New with v := Function.update chip8New.v 0 200 } : Chip8).v 1 = 0 := by
  refine ⟨by decide, by decide, by decide, by decide⟩

/-! ## Claim C3 — unmatched opcodes -/

/-- C3 (counterexample): opcode `0x0000` matches no pattern of the
dispatch table, yet executing it on a fresh machine leaves `pc` at
`0x200` instead of advancing it to `0x202` as the claim states. -/
theorem C3_unmatched_cex :
    decodeOp 0 0x0000 = none ∧
    (executeOpcode 0 chip8New 0x0000).pc = 0x200 ∧
    chip8New.pc + 2 = 0x202 ∧ (0x200 : Nat) ≠ 0x202 := by
  refine ⟨rfl, rfl, rfl, by decide⟩

/-- C3 (amended): an opcode that matches no pattern of the dispatch table
leaves the entire machine state unchanged — `pc` included, which is
NOT advanced; the only effect of the fallback arm is the printed
diagnostic, and execution is never fatal. -/
theorem C3_unmatched_noop (rand : Nat) (s : Chip8) (op : Nat)
    (h : decodeOp rand op = none) :
    executeOpcode rand s op = s := by
  unfold executeOpcode
  rw [h]

/-- C3 witness: the amended no-op theorem applied to the concrete
unmatched opcode `0x0123` on a fresh machine. -/
theorem C3_unmatched_noop_witness :
    decodeOp 0 0x0123 = none ∧ executeOpcode 0 chip8New 0x0123 = chip8New :=
  ⟨rfl, C3_unmatched_noop 0 chip8New 0x0123 rfl⟩

/-! ## Claim C4 — FX55 / FX65 -/

/-- C4 (code bug): executing `0xF355` with `I = 0x500` and
`V0..V3 = 0x11, 0x22, 0x33, 0x21` copies only `V0..V2` — the loop
`for j in 0..x` has an exclusive upper bound, so `memory[I+3]` keeps
its previous value `0` instead of receiving `V3 = 0x21` as the claim,
the doc comment ("V0 to VX inclusive") and the unit test
`mem_regs_load` all require.  The `I := I + X + 1` part does hold. -/
theorem C4_fx55_code_eval :
    (executeOpcode 0
      { chip8New with
        i := 0x500
        v := Function.update (Function.update (Function.update
          (Function.update chip8New.v 0 0x11) 1 0x22) 2 0x33) 3 0x21 }
      0xF355).memory 0x503 = 0 ∧
    (executeOpcode 0
      { chip8New with
        i := 0x500
        v := Function.update (Function.update (Function.update
          (Function.update chip8New.v 0 0x11) 1 0x22) 2 0x33) 3 0x21 }
      0xF355).memory 0x502 = 0x33 ∧
    (executeOpcode 0
      { chip8New with
        i := 0x500
        v := Function.update (Function.update (Function.update
          (Function.update chip8New.v 0 0x11) 1 0x22) 2 0x33) 3 0x21 }
      0xF355).i = 0x504 ∧
    ({ chip8New with
        i := 0x500
        v := Function.update (Function.update (Function.update
          (Function.update chip8New.v 0 0x11) 1 0x22) 2 0x33) 3 0x21 } : Chip8).v 3 = 0x21 ∧
    (0 : Nat) ≠ 0x21 := by
  refine ⟨by decide, by decide, by decide, by decide, by decide⟩

/-! ## Claim C5 — 00EE -/

/-- C5 (counterexample): on a machine with `sp = 2` and
`stack[1] = 0xBBB`, executing `0x00EE` sets `pc` to `0xBBD`, not to the
popped address `0xBBB` itself: after the jump the handler still adds 2
(the unit test `subroutines_and_reset` asserts exactly
`pc = stack[1] + 2`). -/
theorem C5_ret_cex :
    (executeOpcode 0
      { chip8New with
        sp := 2
        stack := Function.update (Function.update chip8New.stack 0 0xAAA) 1 0xBBB }
      0x00EE).pc = 0xBBD ∧
    ({ chip8New with
        sp := 2
        stack := Function.update (Function.update chip8New.stack 0 0xAAA) 1 0xBBB } : Chip8).stack 1 = 0xBBB ∧
    (0xBBD : Nat) ≠ 0xBBB := by
  refine ⟨by decide, by decide, by decide⟩

/-- C5 (amended): for every state with `sp ≥ 1`, executing `0x00EE`
decrements `sp` by 1 and sets `pc` to the stack value read at the
decremented `sp` PLUS 2 (the re-advance compensates `call_addr`
pushing the un-advanced `pc` of the call instruction). -/
theorem C5_ret_amended (rand : Nat) (s : Chip8) (_hsp : 1 ≤ s.sp) :
    (executeOpcode rand s 0x00EE).sp = s.sp - 1 ∧
    (executeOpcode rand s 0x00EE).pc = s.stack (s.sp - 1) + 2 := by
  rw [executeOpcode_ret]
  exact ⟨rfl, rfl⟩

/-- C5 witness: the amended return theorem applied to a concrete machine
with `sp = 2` and `stack[1] = 0xBBB`. -/
theorem C5_ret_amended_witness :
    1 ≤ ({ chip8New with
      sp := 2
      stack := Function.update (Function.update chip8New.stack 0 0xAAA) 1 0xBBB } : Chip8).sp ∧
    (executeOpcode 0
      { chip8New with
        sp := 2
        stack := Function.update (Function.update chip8New.stack 0 0xAAA) 1 0xBBB }
      0x00EE).sp = 1 ∧
    (executeOpcode 0
      { chip8New with
        sp := 2
        stack := Function.update (Function.update chip8New.stack 0 0xAAA) 1 0xBBB }
      0x00EE).pc = 0xBBD := by
  refine ⟨by decide, ?_, ?_⟩
  · exact (C5_ret_amended 0 _ (by decide)).1
  · have h := (C5_ret_amended 0
      { chip8New with
        sp := 2
        stack := Function.update (Function.update chip8New.stack 0 0xAAA) 1 0xBBB }
      (by decide)).2
    rw [h]; decide

/-! ## Claim C6 — FX0A and end_wait_for_key -/

/-- C6: executing an `FX0A` opcode puts the machine into the waiting state
targeting register `X` and changes nothing else (in particular `pc`
does not advance); a subsequent `end_wait_for_key k` then stores `k`
in `V[X]`, clears the wait flag and advances `pc` by exactly 2; and
calling `end_wait_for_key` on a machine that is not waiting leaves the
entire state unchanged (the warning is only logged, never fatal). -/
theorem C6_wait_for_key (rand k x op : Nat) (s : Chip8)
    (ha : op / 4096 % 16 = 0xF) (hb : op / 256 % 16 = x)
    (hc : op / 16 % 16 = 0x0) (hd : op % 16 = 0xA) (hk : k < 256) :
    executeOpcode rand s op = { s with wait_for_key := (true, x) } ∧
    endWaitForKey (executeOpcode rand s op) k =
      { s with
        v := Function.update s.v x k
        wait_for_key := (false, x)
        pc := s.pc + 2 } ∧
    (isWaitingForKey s = false → endWaitForKey s k = s) := by
  have hE : executeOpcode rand s op = ldVxKey s x :=
    executeOpcode_ldVxKey rand x op s ha hb hc hd
  refine ⟨hE, ?_, ?_⟩
  · rw [hE]
    simp only [endWaitForKey, isWaitingForKey, ldVxKey]
    simp [Nat.mod_eq_of_lt hk]
  · intro h
    simp only [endWaitForKey, h, if_pos]

/-- C6 witness: the wait-for-key theorem applied on a fresh machine with
`x = 3`, `k = 7` and opcode `0xF30A`. -/
theorem C6_wait_for_key_witness :
    ((0xF30A : Nat) / 4096 % 16 = 0xF ∧ (0xF30A : Nat) / 256 % 16 = 3 ∧
      (0xF30A : Nat) / 16 % 16 = 0x0 ∧ (0xF30A : Nat) % 16 = 0xA ∧ (7 : Nat) < 256) ∧
    executeOpcode 0 chip8New 0xF30A = { chip8New with wait_for_key := (true, 3) } ∧
    endWaitForKey (executeOpcode 0 chip8New 0xF30A) 7 =
      { chip8New with
        v := Function.update chip8New.v 3 7
        wait_for_key := (false, 3)
        pc := chip8New.pc + 2 } := by
  refine ⟨by decide, ?_, ?_⟩
  · exact (C6_wait_for_key 0 7 3 0xF30A chip8New rfl rfl rfl rfl (by decide)).1
  · exact (C6_wait_for_key 0 7 3 0xF30A chip8New rfl rfl rfl rfl (by decide)).2.1

/-! ## Claim C8 — 7XNN and 8XY4 -/

/-- C8 (counterexample): for `X = 15` the claim fails: executing `0x7F01`
on a fresh machine (where `V15 = 0`) sets `V15` to `1`, so `7XNN` does
NOT leave the flag register untouched when `X` is itself the flag
register. -/
theorem C8_flag_target_cex :
    (executeOpcode 0 chip8New 0x7F01).v FLAG = 1 ∧
    chip8New.v FLAG = 0 ∧ (1 : Nat) ≠ 0 := by
  refine ⟨by decide, by decide, by decide⟩

/-- C8 (amended): for register indices `X ≠ 15`: `7XNN` sets `V[X]` to
`(V[X] + NN) mod 256` and leaves the flag register untouched, and
`8XY4` sets `V[X]` to `(V[X] + V[Y]) mod 256`; for every `X` (15
included, where this final write overwrites the wrapped sum) `8XY4`
sets the flag register to 1 iff the unwrapped sum exceeds 255, else
to 0. -/
theorem C8_add_amended (rand x y nn op7 op8 : Nat) (s : Chip8)
    (h7a : op7 / 4096 % 16 = 0x7) (h7b : op7 / 256 % 16 = x)
    (h7nn : op7 % 256 = nn)
    (h8a : op8 / 4096 % 16 = 0x8) (h8b : op8 / 256 % 16 = x)
    (h8c : op8 / 16 % 16 = y) (h8d : op8 % 16 = 0x4) :
    (x ≠ FLAG →
      (executeOpcode rand s op7).v x = (s.v x + nn) % 256 ∧
      (executeOpcode rand s op7).v FLAG = s.v FLAG ∧
      (executeOpcode rand s op8).v x = (s.v x + s.v y) % 256) ∧
    (executeOpcode rand s op8).v FLAG =
      (if 255 < s.v x + s.v y then 1 else 0) := by
  have h7 : executeOpcode rand s op7 = addVxNn s x nn :=
    executeOpcode_addVxNn rand x nn op7 s h7a h7b h7nn
  have h8 : executeOpcode rand s op8 = addVxVy s x y :=
    executeOpcode_addVxVy rand x y op8 s h8a h8b h8c h8d
  rw [h7, h8]
  constructor
  · intro hx
    refine ⟨?_, ?_, ?_⟩
    · simp [addVxNn, Function.update_apply]
    · simp [addVxNn, Function.update_apply, hx, Ne.symm hx]
    · simp [addVxVy, Function.update_apply, hx]
  · simp [addVxVy, Function.update_apply]

/-- C8 witness: the amended addition theorem applied with `x = 0`,
`y = 1`, `nn = 5` on a fresh machine. -/
theorem C8_add_amended_witness :
    ((0x7005 : Nat) / 4096 % 16 = 0x7 ∧ (0x7005 : Nat) / 256 % 16 = 0 ∧
      (0x7005 : Nat) % 256 = 5 ∧ (0x8014 : Nat) / 4096 % 16 = 0x8 ∧
      (0x8014 : Nat) / 256 % 16 = 0 ∧ (0x8014 : Nat) / 16 % 16 = 1 ∧
      (0x8014 : Nat) % 16 = 0x4 ∧ (0 : Nat) ≠ FLAG) ∧
    (executeOpcode 0 chip8New 0x7005).v 0 = (chip8New.v 0 + 5) % 256 ∧
    (executeOpcode 0 chip8New 0x8014).v FLAG =
      (if 255 < chip8New.v 0 + chip8New.v 1 then 1 else 0) := by
  refine ⟨by decide, ?_, ?_⟩
  · exact ((C8_add_amended 0 0 1 5 0x7005 0x8014 chip8New rfl rfl rfl rfl rfl
      rfl rfl).1 (by decide)).1
  · exact (C8_add_amended 0 0 1 5 0x7005 0x8014 chip8New rfl rfl rfl rfl rfl
      rfl rfl).2

/-! ## Claim C9 — FX29 -/

/-- C9 (counterexample): executing `0xF029` with `V0 = 255` sets `I` to
`251`, not to `255 * 5 = 1275`: the multiplication is performed on
`u8`, so it wraps modulo 256 before the cast to `usize`. -/
theorem C9_font_cex :
    (executeOpcode 0 { chip8New with v := Function.update chip8New.v 0 255 }
      0xF029).i = 251 ∧
    ({ chip8New with v := Function.update chip8New.v 0 255 } : Chip8).v 0 * 5 = 1275 ∧
    (251 : Nat) ≠ 1275 := by
  refine ⟨by decide, by decide, by decide⟩

/-- C9 (amended): `FX29` sets `I` to `(V[X] * 5) mod 256` (a wrapping `u8`
multiplication); the value is the exact product `V[X] * 5` whenever
`V[X] ≤ 51` — in particular for every hexadecimal digit `0x0..0xF`,
the documented domain of the font-glyph lookup. -/
theorem C9_font_amended (rand x op : Nat) (s : Chip8)
    (ha : op / 4096 % 16 = 0xF) (hb : op / 256 % 16 = x)
    (hc : op / 16 % 16 = 0x2) (hd : op % 16 = 0x9) :
    (executeOpcode rand s op).i = s.v x * 5 % 256 ∧
    (s.v x ≤ 51 → (executeOpcode rand s op).i = s.v x * 5) := by
  have hE : executeOpcode rand s op = ldIFontVx s x :=
    executeOpcode_ldIFontVx rand x op s ha hb hc hd
  rw [hE]
  refine ⟨rfl, fun h51 => ?_⟩
  show s.v x * 5 % 256 = s.v x * 5
  exact Nat.mod_eq_of_lt (by omega)

/-- C9 witness: the amended font-address theorem applied to a machine with
`V0 = 0xF` (the largest font digit) and opcode `0xF029`. -/
theorem C9_font_amended_witness :
    ((0xF029 : Nat) / 4096 % 16 = 0xF ∧ (0xF029 : Nat) / 256 % 16 = 0 ∧
      (0xF029 : Nat) / 16 % 16 = 0x2 ∧ (0xF029 : Nat) % 16 = 0x9 ∧
      ({ chip8New with v := Function.update chip8New.v 0 0xF } : Chip8).v 0 ≤ 51) ∧
    (executeOpcode 0 { chip8New with v := Function.update chip8New.v 0 0xF }
      0xF029).i = 75 := by
  refine ⟨by decide, ?_⟩
  have h := (C9_font_amended 0 0 0xF029
    { chip8New with v := Function.update chip8New.v 0 0xF } rfl rfl rfl rfl).2
    (by decide)
  rw [h]; decide

/-! ## Claim C10 — dirty flag on new and reset -/

/-- C10: a freshly created machine and a machine immediately after `reset`
both have the display's dirty flag already set to `true`, before any
drawing operation. -/
theorem C10_dirty_on_new_and_reset :
    chip8New.display.dirty = true ∧
    ∀ s : Chip8, (reset s).display.dirty = true :=
  ⟨rfl, fun _ => rfl⟩

end Chip8VM
